import Mathlib

/-!
Verification of the liquidity-aggregation core of the rwa-platform
repository (modules src/lib/stellar/liquidity.ts and
src/lib/stellar/liquidityAggregator.ts).

Numbers: the source operates on JavaScript numbers used as exact
quantities (amounts, reserves, fees in basis points).  The embedding uses
the rationals, with the usual Lean convention that division by zero
yields zero; every place where that convention could matter is noted at
the theorem that depends on it.

Externals: the ledger query service (Horizon) and the pool-id derivation
of the Stellar SDK are collaborators outside the repository; they enter
the embedding as explicit function parameters of the discovery
operation, so that every theorem quantifies over their behaviour.
-/

namespace RWA

/-- An asset of the ledger: either the native currency or an issued
(code, issuer) pair.  Mirrors the use of StellarSDK.Asset in the source;
only identity matters to the aggregator, so the structural content
suffices. -/
inductive Asset where
  | native
  | issued (code issuer : String)
deriving DecidableEq

/-- The source tag of a discovered pool, from the LiquiditySource
interface of liquidityAggregator.ts (lines 13-24). -/
inductive SourceKind where
  | stellar_native
  | external_dex
deriving DecidableEq

/-- LiquiditySource record, from liquidityAggregator.ts lines 13-24. -/
structure LiquiditySource where
  poolId : String
  source : SourceKind
  assetA : Asset
  assetB : Asset
  reserveA : ℚ
  reserveB : ℚ
  totalShares : ℚ
  fee : ℚ
  tvl : ℚ
  price : ℚ
deriving DecidableEq

/-- calculatePoolPrice from liquidity.ts lines 365-371: reserve1 over
reserve0, with an explicit zero result when reserve0 is zero. -/
def calculatePoolPrice (r0 r1 : ℚ) : ℚ :=
  if r0 = 0 then 0 else r1 / r0

/-- calculateSpotPrice from liquidity.ts lines 426-428: an alias of
calculatePoolPrice. -/
def calculateSpotPrice (r0 r1 : ℚ) : ℚ :=
  calculatePoolPrice r0 r1

/-- calculateSwapOutput from liquidity.ts lines 413-424: the
constant-product swap quote with the fee (in basis points) deducted from
the input before the exchange. -/
def calculateSwapOutput (inputAmount inputReserve outputReserve feeBps : ℚ) : ℚ :=
  let feeMultiplier := (10000 - feeBps) / 10000
  let inputWithFee := inputAmount * feeMultiplier
  let numerator := inputWithFee * outputReserve
  let denominator := inputReserve + inputWithFee
  numerator / denominator

/-- Result shape destructured by the aggregator from its swap helper:
an object carrying outputAmount and priceImpact. -/
structure SwapResult where
  outputAmount : ℚ
  priceImpact : ℚ
deriving DecidableEq

/-- Modelled from the spec: liquidityAggregator.ts destructures
an object with outputAmount and priceImpact from calculateSwapOutput
(lines 154-159, 194-195, 213-218), an object-returning variant of the
pool-math swap helper that the repository carries in a parallel module
not among the provided files (the scalar variant above is the one in
liquidity.ts; section 9 of the spec records the two parallel
signatures).  Per section 4.1 of the spec: outputAmount is the
constant-product quote, and priceImpact is one minus the ratio of the
execution price (outputAmount over inputAmount) to the spot price of the
pool. -/
def calculateSwapResult (inputAmount inputReserve outputReserve feeBps : ℚ) : SwapResult :=
  let outputAmount := calculateSwapOutput inputAmount inputReserve outputReserve feeBps
  let executionPrice := outputAmount / inputAmount
  let spotPrice := calculateSpotPrice inputReserve outputReserve
  { outputAmount := outputAmount, priceImpact := 1 - executionPrice / spotPrice }

/-- The swap quote the aggregator computes for one source: the input
side is reserveA, the output side reserveB, at the fee of the source
(liquidityAggregator.ts lines 154-159). -/
def sourceSwap (inputAmount : ℚ) (s : LiquiditySource) : SwapResult :=
  calculateSwapResult inputAmount s.reserveA s.reserveB s.fee

/-- Price impact a source would incur absorbing the given amount alone,
the ranking key of the router sort (liquidityAggregator.ts lines
193-197). -/
def fullImpact (inputAmount : ℚ) (s : LiquiditySource) : ℚ :=
  (sourceSwap inputAmount s).priceImpact

/-- Outcome of one ledger query for a pool id, as seen by the discovery
loop of liquidityAggregator.ts lines 68-101: getPoolInfo (liquidity.ts
lines 251-264) yields the pool, or null on a not-found response, or
throws on a transport failure. -/
inductive PoolLookup where
  | found (reserveA reserveB totalShares : ℚ)
  | notFound
  | transportError
deriving DecidableEq

/-- The fixed fee tiers enumerated by discovery
(liquidityAggregator.ts line 66). -/
def feeTiers : List ℚ := [30, 100, 300]

/-- The LiquiditySource built from a successful lookup
(liquidityAggregator.ts lines 74-93): reserves and total shares parsed
from the snapshot, tvl the sum of the reserves, price the spot price. -/
def mkDiscoveredSource (assetA assetB : Asset) (poolId : String) (fee : ℚ)
    (reserveA reserveB totalShares : ℚ) : LiquiditySource :=
  { poolId := poolId
    source := .stellar_native
    assetA := assetA
    assetB := assetB
    reserveA := reserveA
    reserveB := reserveB
    totalShares := totalShares
    fee := fee
    tvl := reserveA + reserveB
    price := calculateSpotPrice reserveA reserveB }

/-- discoverExternalDEXs from liquidityAggregator.ts lines 123-139: the
external adapters are a placeholder and return no sources. -/
def discoverExternalDEXs (_assetA _assetB : Asset) : List LiquiditySource :=
  []

/-- The per-tier loop of discoverLiquiditySources (liquidityAggregator.ts
lines 68-101): a found pool is converted and appended; a not-found
lookup is skipped; a thrown transport error is caught by the per-tier
try/catch and equally skipped. -/
def discoverNativeTiers (assetA assetB : Asset) (poolIdOf : ℚ → String)
    (svc : String → PoolLookup) : List ℚ → List LiquiditySource
  | [] => []
  | fee :: rest =>
    match svc (poolIdOf fee) with
    | .found a b sh =>
        mkDiscoveredSource assetA assetB (poolIdOf fee) fee a b sh ::
          discoverNativeTiers assetA assetB poolIdOf svc rest
    | .notFound => discoverNativeTiers assetA assetB poolIdOf svc rest
    | .transportError => discoverNativeTiers assetA assetB poolIdOf svc rest

/-- discoverLiquiditySources from liquidityAggregator.ts lines 54-118:
enumerate the fee tiers against the ledger query service, then append
the (empty) external sources.  The pool-id derivation (the Stellar SDK
call behind getLiquidityPoolId) and the query service are the external
collaborators, passed as poolIdOf and svc. -/
def discoverLiquiditySources (assetA assetB : Asset) (poolIdOf : ℚ → String)
    (svc : String → PoolLookup) : List LiquiditySource :=
  discoverNativeTiers assetA assetB poolIdOf svc feeTiers ++
    discoverExternalDEXs assetA assetB

/-- The accumulation loop of findBestSource (liquidityAggregator.ts
lines 150-165): bestOutput starts at zero and only a strictly greater
output replaces the current best. -/
def findBestLoop (inputAmount : ℚ) :
    List LiquiditySource → Option LiquiditySource → ℚ → Option LiquiditySource
  | [], best, _ => best
  | s :: rest, best, bestOutput =>
    if bestOutput < (sourceSwap inputAmount s).outputAmount then
      findBestLoop inputAmount rest (some s) ((sourceSwap inputAmount s).outputAmount)
    else
      findBestLoop inputAmount rest best bestOutput

/-- findBestSource from liquidityAggregator.ts lines 144-168. -/
def findBestSource (sources : List LiquiditySource) (inputAmount : ℚ) :
    Option LiquiditySource :=
  if sources.length = 0 then none
  else findBestLoop inputAmount sources none 0

/-- Running maximum of the swap outputs of a source list, seeded at the
given initial bound; the value tracked by bestOutput in the loop of
findBestSource. -/
def bestOutputFold (inputAmount : ℚ) (sources : List LiquiditySource) (init : ℚ) : ℚ :=
  sources.foldl (fun m s => max m ((sourceSwap inputAmount s).outputAmount)) init

/-- The selection findBestSource actually performs, written
declaratively: the first source in list order whose output attains the
maximum, provided that maximum is strictly positive; none otherwise. -/
def specFindBest (sources : List LiquiditySource) (inputAmount : ℚ) :
    Option LiquiditySource :=
  if 0 < bestOutputFold inputAmount sources 0 then
    sources.find? fun s =>
      decide ((sourceSwap inputAmount s).outputAmount = bestOutputFold inputAmount sources 0)
  else none

/-- One allocation entry of an AggregatedRoute
(liquidityAggregator.ts lines 27-32). -/
structure RouteAllocation where
  poolId : String
  inputAmount : ℚ
  outputAmount : ℚ
  priceImpact : ℚ
deriving DecidableEq

/-- AggregatedRoute from liquidityAggregator.ts lines 26-37. -/
structure AggregatedRoute where
  sources : List RouteAllocation
  totalInput : ℚ
  totalOutput : ℚ
  averagePriceImpact : ℚ
  effectivePrice : ℚ
deriving DecidableEq

/-- The allocation pushed for one selected source
(liquidityAggregator.ts lines 211-225). -/
def mkAllocation (amountPerSplit : ℚ) (s : LiquiditySource) : RouteAllocation :=
  { poolId := s.poolId
    inputAmount := amountPerSplit
    outputAmount := (sourceSwap amountPerSplit s).outputAmount
    priceImpact := (sourceSwap amountPerSplit s).priceImpact }

/-- The ranking sort of calculateOptimalRoute (liquidityAggregator.ts
lines 193-197): ascending by the price impact of the full input amount.
JavaScript array sort with a consistent comparator is stable, as is
mergeSort. -/
def sortSourcesByImpact (sources : List LiquiditySource) (inputAmount : ℚ) :
    List LiquiditySource :=
  sources.mergeSort fun a b => decide (fullImpact inputAmount a ≤ fullImpact inputAmount b)

/-- The splitting loop of calculateOptimalRoute (liquidityAggregator.ts
lines 211-229): for each selected source push an allocation and
accumulate totalInput and totalOutput. -/
def routeLoop (amountPerSplit : ℚ) : List LiquiditySource → List RouteAllocation × ℚ × ℚ
  | [] => ([], 0, 0)
  | s :: rest =>
    let a := mkAllocation amountPerSplit s
    let r := routeLoop amountPerSplit rest
    (a :: r.1, amountPerSplit + r.2.1, a.outputAmount + r.2.2)

/-- calculateOptimalRoute from liquidityAggregator.ts lines 177-237. -/
def calculateOptimalRoute (sources : List LiquiditySource) (inputAmount : ℚ)
    (maxSplits : ℕ) : AggregatedRoute :=
  if sources.length = 0 then
    { sources := [], totalInput := 0, totalOutput := 0
      averagePriceImpact := 0, effectivePrice := 0 }
  else
    let sorted := sortSourcesByImpact sources inputAmount
    let splitsToUse := min maxSplits sorted.length
    let amountPerSplit := inputAmount / (splitsToUse : ℚ)
    let r := routeLoop amountPerSplit (sorted.take splitsToUse)
    { sources := r.1
      totalInput := r.2.1
      totalOutput := r.2.2
      averagePriceImpact := (r.1.map RouteAllocation.priceImpact).sum / (r.1.length : ℚ)
      effectivePrice := r.2.1 / r.2.2 }

/-- The route described by the specification, stated with sums over the
allocation list: rank sources ascending by full-amount impact, keep the
top min(maxSplits, sourceCount), give each of them an equal share of the
input, and aggregate by summation, with the average impact the
arithmetic mean and the effective price the ratio of the totals. -/
def specOptimalRoute (sources : List LiquiditySource) (inputAmount : ℚ)
    (maxSplits : ℕ) : AggregatedRoute :=
  let ranked := sortSourcesByImpact sources inputAmount
  let n := min maxSplits sources.length
  let amountPerSplit := inputAmount / (n : ℚ)
  let selected := (ranked.take n).map (mkAllocation amountPerSplit)
  { sources := selected
    totalInput := (selected.map RouteAllocation.inputAmount).sum
    totalOutput := (selected.map RouteAllocation.outputAmount).sum
    averagePriceImpact := (selected.map RouteAllocation.priceImpact).sum / (selected.length : ℚ)
    effectivePrice :=
      (selected.map RouteAllocation.inputAmount).sum /
        (selected.map RouteAllocation.outputAmount).sum }

/-- The outcome message of bootstrapNewPool, by constructor rather than
by literal text: the four message strings built at
liquidityAggregator.ts lines 268, 282, 309 and 318.  The success-path
return statement (line 307) reads the identifier liquidityAdded, which
is bound nowhere in the function (the accumulator is named
liquidityToAdd), so evaluating that return raises a ReferenceError that
the surrounding catch converts into the failure message of line 318. -/
inductive BootstrapMessage where
  | noSources
  | insufficientLiquidity (available required : ℚ)
  | referenceErrorLiquidityAdded
deriving DecidableEq

/-- The result shape of bootstrapNewPool (liquidityAggregator.ts lines
249-254), with the two planned amounts flattened into separate
fields. -/
structure BootstrapResult where
  success : Bool
  liquidityAddedA : ℚ
  liquidityAddedB : ℚ
  sourcesUsed : List String
  message : BootstrapMessage
deriving DecidableEq

/-- bootstrapNewPool from liquidityAggregator.ts lines 246-321, taken at
the point after discovery (the discovered source list is the first
argument).  The allocation loop of lines 290-299 is retained as the dead
computation it is: the success return at line 307 references the unbound
identifier liquidityAdded, so the try block raises a ReferenceError
before any success value is produced, and the catch at lines 312-320
returns the failure-shaped result instead. -/
def bootstrapNewPool (sources : List LiquiditySource) (targetLiquidityUSD : ℚ) :
    BootstrapResult :=
  if sources.length = 0 then
    { success := false, liquidityAddedA := 0, liquidityAddedB := 0
      sourcesUsed := [], message := .noSources }
  else
    let totalAvailableLiquidity := (sources.map LiquiditySource.tvl).sum
    if totalAvailableLiquidity < targetLiquidityUSD then
      { success := false, liquidityAddedA := 0, liquidityAddedB := 0
        sourcesUsed := []
        message := .insufficientLiquidity totalAvailableLiquidity targetLiquidityUSD }
    else
      let _liquidityToAdd : ℚ × ℚ := sources.foldl
        (fun acc s =>
          let proportion := min (s.tvl / totalAvailableLiquidity) 1
          let amountFromSource := targetLiquidityUSD * proportion * 0.5
          (acc.1 + amountFromSource / s.price, acc.2 + amountFromSource))
        (0, 0)
      let _sourcesUsed := sources.map LiquiditySource.poolId
      { success := false, liquidityAddedA := 0, liquidityAddedB := 0
        sourcesUsed := [], message := .referenceErrorLiquidityAdded }

/-- The result shape of checkPoolHealth (liquidityAggregator.ts lines
439-443). -/
structure PoolHealth where
  healthy : Bool
  issues : List String
  score : ℚ
deriving DecidableEq

/-- checkPoolHealth from liquidityAggregator.ts lines 439-471: score
starts at 100; low tvl costs 30; an imbalanced reserve quotient costs
20; zero total shares cost 50; healthy compares the accumulated score
with 50, and the returned score is floored at zero. -/
def checkPoolHealth (s : LiquiditySource) : PoolHealth :=
  let issues0 : List String := []
  let score0 : ℚ := 100
  let step1 :=
    if s.tvl < 1000 then (issues0 ++ ["Low TVL (< $1,000)"], score0 - 30)
    else (issues0, score0)
  let step2 :=
    if 10 < s.reserveA / s.reserveB ∨ s.reserveA / s.reserveB < 0.1 then
      (step1.1 ++ ["Imbalanced reserves"], step1.2 - 20)
    else step1
  let step3 :=
    if s.totalShares = 0 then (step2.1 ++ ["No liquidity providers"], step2.2 - 50)
    else step2
  { healthy := decide (50 ≤ step3.2), issues := step3.1, score := max 0 step3.2 }

/-- The health score as the specification words it: one hundred minus
the applicable deductions, floored at zero. -/
def specHealthScore (s : LiquiditySource) : ℚ :=
  max 0 (100 - (if s.tvl < 1000 then 30 else 0)
    - (if 10 < s.reserveA / s.reserveB ∨ s.reserveA / s.reserveB < 0.1 then 20 else 0)
    - (if s.totalShares = 0 then 50 else 0))

/-- The health score before the floor at zero, against which the
healthy flag is decided in the source. -/
def specRawHealthScore (s : LiquiditySource) : ℚ :=
  100 - (if s.tvl < 1000 then 30 else 0)
    - (if 10 < s.reserveA / s.reserveB ∨ s.reserveA / s.reserveB < 0.1 then 20 else 0)
    - (if s.totalShares = 0 then 50 else 0)

/-- A pool with liquidity on both sides, used as a concrete routing
input. -/
def srcAlpha : LiquiditySource :=
  { poolId := "alpha", source := .stellar_native
    assetA := .native, assetB := .issued "USD" "GISSUER"
    reserveA := 1000, reserveB := 2000, totalShares := 100
    fee := 30, tvl := 3000, price := 2 }

/-- A second, deeper pool for the same pair. -/
def srcBeta : LiquiditySource :=
  { poolId := "beta", source := .stellar_native
    assetA := .native, assetB := .issued "USD" "GISSUER"
    reserveA := 4000, reserveB := 8000, totalShares := 400
    fee := 100, tvl := 12000, price := 2 }

/-- A pool whose output-side reserve is empty: every swap against it
quotes a zero output. -/
def srcDrained : LiquiditySource :=
  { poolId := "drained", source := .stellar_native
    assetA := .native, assetB := .issued "USD" "GISSUER"
    reserveA := 1000, reserveB := 0, totalShares := 100
    fee := 30, tvl := 1000, price := 0 }

/-- A small pool whose tvl is 100, below any interesting bootstrap
target. -/
def srcSmall : LiquiditySource :=
  { poolId := "small", source := .stellar_native
    assetA := .native, assetB := .issued "USD" "GISSUER"
    reserveA := 50, reserveB := 50, totalShares := 10
    fee := 30, tvl := 100, price := 1 }

/-- The unhealthy pool of the specification example: tvl 500, zero
total shares, balanced reserves. -/
def srcUnhealthy : LiquiditySource :=
  { poolId := "unhealthy", source := .stellar_native
    assetA := .native, assetB := .issued "USD" "GISSUER"
    reserveA := 250, reserveB := 250, totalShares := 0
    fee := 30, tvl := 500, price := 1 }

/-- Claim C5: for every inputAmount, inputReserve, outputReserve and
feeBps, calculateSwapOutput equals effectiveIn times outputReserve over
inputReserve plus effectiveIn, where effectiveIn is inputAmount times
(10000 minus feeBps) over 10000. -/
theorem calculateSwapOutput_formula (inputAmount inputReserve outputReserve feeBps : ℚ) :
    calculateSwapOutput inputAmount inputReserve outputReserve feeBps =
      inputAmount * (10000 - feeBps) / 10000 * outputReserve /
        (inputReserve + inputAmount * (10000 - feeBps) / 10000) := by
  simp only [calculateSwapOutput]
  ring

/-- Claim C10: a swap quoted against a zero input-side reserve promises
exactly the whole opposing reserve, for every positive input amount and
every fee below 10000 basis points. -/
theorem calculateSwapOutput_zero_input_reserve (inputAmount outputReserve feeBps : ℚ)
    (hx : 0 < inputAmount) (_hf0 : 0 ≤ feeBps) (hf : feeBps < 10000) :
    calculateSwapOutput inputAmount 0 outputReserve feeBps = outputReserve := by
  have hc : (0 : ℚ) < (10000 - feeBps) / 10000 :=
    div_pos (by linarith) (by norm_num)
  have he : inputAmount * ((10000 - feeBps) / 10000) ≠ 0 :=
    ne_of_gt (mul_pos hx hc)
  simp only [calculateSwapOutput]
  rw [zero_add, mul_div_cancel_left₀ _ he]

/-- Witness for claim C10 at inputAmount 1, outputReserve 500, fee 30
basis points. -/
theorem calculateSwapOutput_zero_input_reserve_witness :
    ((0 : ℚ) < 1 ∧ (0 : ℚ) ≤ 30 ∧ (30 : ℚ) < 10000) ∧
      calculateSwapOutput 1 0 500 30 = 500 :=
  ⟨by norm_num,
    calculateSwapOutput_zero_input_reserve 1 500 30 (by norm_num) (by norm_num) (by norm_num)⟩

/-- Claim C6: on valid inputs the swap quote is strictly monotone in the
input amount and in the output reserve, and with a positive fee it is
strictly below the naive no-fee output. -/
theorem calculateSwapOutput_monotone (x y rin rout rout2 feeBps : ℚ)
    (hx : 0 < x) (hxy : x < y) (hrin : 0 < rin) (hrout : 0 < rout)
    (hrr : rout < rout2) (_hf0 : 0 ≤ feeBps) (hf : feeBps < 10000) :
    calculateSwapOutput x rin rout feeBps < calculateSwapOutput y rin rout feeBps ∧
    calculateSwapOutput x rin rout feeBps < calculateSwapOutput x rin rout2 feeBps ∧
    (0 < feeBps → calculateSwapOutput x rin rout feeBps < x * rout / rin) := by
  simp only [calculateSwapOutput]
  set c : ℚ := (10000 - feeBps) / 10000 with hc
  have hc0 : 0 < c := div_pos (by linarith) (by norm_num)
  have hdx : 0 < rin + x * c := add_pos hrin (mul_pos hx hc0)
  have hdy : 0 < rin + y * c := add_pos hrin (mul_pos (hx.trans hxy) hc0)
  refine ⟨?_, ?_, ?_⟩
  · rw [div_lt_div_iff₀ hdx hdy]
    nlinarith [mul_pos (mul_pos (mul_pos hc0 hrout) hrin) (sub_pos.mpr hxy)]
  · rw [div_lt_div_iff₀ hdx hdx]
    nlinarith [mul_pos (mul_pos hx hc0) (sub_pos.mpr hrr)]
  · intro hfpos
    have hc1 : c < 1 := by
      rw [hc, div_lt_one (by norm_num : (0 : ℚ) < 10000)]
      linarith
    rw [div_lt_div_iff₀ hdx hrin]
    nlinarith [mul_pos (mul_pos (mul_pos hx hrout) hrin) (sub_pos.mpr hc1),
      mul_pos (mul_pos (mul_pos hx hrout) hx) hc0]

/-- Witness for claim C6 at x 1000, y 2000, reserves one million each,
second output reserve two million, fee 30 basis points. -/
theorem calculateSwapOutput_monotone_witness :
    ((0 : ℚ) < 1000 ∧ (1000 : ℚ) < 2000 ∧ (0 : ℚ) < 1000000 ∧
        (1000000 : ℚ) < 2000000 ∧ (0 : ℚ) ≤ 30 ∧ (30 : ℚ) < 10000 ∧ (0 : ℚ) < 30) ∧
      calculateSwapOutput 1000 1000000 1000000 30 < calculateSwapOutput 2000 1000000 1000000 30 ∧
      calculateSwapOutput 1000 1000000 1000000 30 < calculateSwapOutput 1000 1000000 2000000 30 ∧
      calculateSwapOutput 1000 1000000 1000000 30 < 1000 * 1000000 / 1000000 := by
  have h := calculateSwapOutput_monotone 1000 2000 1000000 1000000 2000000 30
    (by norm_num) (by norm_num) (by norm_num) (by norm_num) (by norm_num)
    (by norm_num) (by norm_num)
  exact ⟨by norm_num, h.1, h.2.1, h.2.2 (by norm_num)⟩

/-- Claim C8: routing over an empty source list yields the all-zero
aggregated route with an empty allocation list, for every input amount
and split bound. -/
theorem calculateOptimalRoute_empty (inputAmount : ℚ) (maxSplits : ℕ) :
    calculateOptimalRoute [] inputAmount maxSplits =
      { sources := [], totalInput := 0, totalOutput := 0
        averagePriceImpact := 0, effectivePrice := 0 } := rfl

/-- Claim C9: on every source whose reserveB is nonzero (so that the
reserve quotient of the source is the exact rational quotient, with no
division-by-zero convention involved), checkPoolHealth returns the score
the specification describes, floored at zero, and the healthy flag holds
exactly when the unfloored score reaches 50. -/
theorem checkPoolHealth_spec (s : LiquiditySource) (_h : s.reserveB ≠ 0) :
    (checkPoolHealth s).score = specHealthScore s ∧
      ((checkPoolHealth s).healthy = true ↔ 50 ≤ specRawHealthScore s) := by
  constructor
  · simp only [checkPoolHealth, specHealthScore]
    split_ifs <;> norm_num
  · simp only [checkPoolHealth, specRawHealthScore, decide_eq_true_eq]
    split_ifs <;> norm_num

/-- Witness for claim C9 at the concrete source of the specification
example: tvl 500, total shares zero, balanced reserves.  The deductions
are 30 and 50, the score is 20 and the source is not healthy. -/
theorem checkPoolHealth_spec_witness :
    (srcUnhealthy.reserveB ≠ 0 ∧
        (checkPoolHealth srcUnhealthy).score = specHealthScore srcUnhealthy ∧
        ((checkPoolHealth srcUnhealthy).healthy = true ↔
          50 ≤ specRawHealthScore srcUnhealthy)) ∧
      (checkPoolHealth srcUnhealthy).score = 20 ∧
      (checkPoolHealth srcUnhealthy).healthy = false := by
  have h := checkPoolHealth_spec srcUnhealthy (by norm_num [srcUnhealthy])
  refine ⟨⟨by norm_num [srcUnhealthy], h⟩, ?_, ?_⟩
  · norm_num [checkPoolHealth, srcUnhealthy]
  · norm_num [checkPoolHealth, srcUnhealthy]

/-- Claim C7: all failure paths of bootstrapNewPool return structured
results.  With no discovered sources the result is the no-sources
failure; with insufficient summed tvl it is the insufficient-liquidity
failure naming the available and required amounts; and every result with
a false success flag carries zero planned amounts and an empty source
list.  The embedded function is total, so no path escapes by
exception. -/
theorem bootstrapNewPool_failure_semantics (sources : List LiquiditySource)
    (targetLiquidityUSD : ℚ) :
    (sources = [] →
      bootstrapNewPool sources targetLiquidityUSD =
        { success := false, liquidityAddedA := 0, liquidityAddedB := 0
          sourcesUsed := [], message := .noSources }) ∧
    (sources ≠ [] → (sources.map LiquiditySource.tvl).sum < targetLiquidityUSD →
      bootstrapNewPool sources targetLiquidityUSD =
        { success := false, liquidityAddedA := 0, liquidityAddedB := 0
          sourcesUsed := []
          message := .insufficientLiquidity ((sources.map LiquiditySource.tvl).sum)
            targetLiquidityUSD }) ∧
    ((bootstrapNewPool sources targetLiquidityUSD).success = false →
      (bootstrapNewPool sources targetLiquidityUSD).liquidityAddedA = 0 ∧
      (bootstrapNewPool sources targetLiquidityUSD).liquidityAddedB = 0 ∧
      (bootstrapNewPool sources targetLiquidityUSD).sourcesUsed = []) := by
  refine ⟨?_, ?_, ?_⟩
  · intro h
    subst h
    rfl
  · intro hne hlt
    have hlen : sources.length ≠ 0 := by
      simpa [List.length_eq_zero] using hne
    simp only [bootstrapNewPool]
    rw [if_neg hlen, if_pos hlt]
  · intro _
    simp only [bootstrapNewPool]
    split_ifs <;> exact ⟨rfl, rfl, rfl⟩

/-- Witness for claim C7: the empty discovery result and a single pool
of tvl 100 against a target of 500. -/
theorem bootstrapNewPool_failure_semantics_witness :
    bootstrapNewPool [] 500 =
      { success := false, liquidityAddedA := 0, liquidityAddedB := 0
        sourcesUsed := [], message := .noSources } ∧
    bootstrapNewPool [srcSmall] 500 =
      { success := false, liquidityAddedA := 0, liquidityAddedB := 0
        sourcesUsed := [], message := .insufficientLiquidity 100 500 } := by
  constructor
  · exact (bootstrapNewPool_failure_semantics [] 500).1 rfl
  · have h := (bootstrapNewPool_failure_semantics [srcSmall] 500).2.1
      (List.cons_ne_nil _ _) (by norm_num [srcSmall])
    simpa [srcSmall] using h

/-- Claim C2 (code bug): with one discovered source of tvl 2000 and a
target of 1000 the summed tvl suffices, yet bootstrapNewPool returns a
failure: the success return statement at liquidityAggregator.ts line 307
reads the identifier liquidityAdded, which is never bound (the
accumulator of lines 287-299 is liquidityToAdd), so the planned amounts
are dropped and the catch path reports a failure instead of the success
result the claim (and the specification, section 4.4 step 5)
describes. -/
theorem bootstrapNewPool_success_path_bug :
    (1000 : ℚ) ≤ (([srcAlpha, srcBeta].map LiquiditySource.tvl).sum) ∧
      bootstrapNewPool [srcAlpha, srcBeta] 1000 =
        { success := false, liquidityAddedA := 0, liquidityAddedB := 0
          sourcesUsed := [], message := .referenceErrorLiquidityAdded } ∧
      (bootstrapNewPool [srcAlpha, srcBeta] 1000).success ≠ true := by
  refine ⟨by norm_num [srcAlpha, srcBeta], ?_, ?_⟩
  · simp only [bootstrapNewPool]
    rw [if_neg (by norm_num), if_neg (by norm_num [srcAlpha, srcBeta])]
  · simp only [bootstrapNewPool]
    rw [if_neg (by norm_num), if_neg (by norm_num [srcAlpha, srcBeta])]
    simp

theorem bestOutputFold_cons (amt : ℚ) (s : LiquiditySource) (l : List LiquiditySource)
    (init : ℚ) :
    bestOutputFold amt (s :: l) init =
      bestOutputFold amt l (max init ((sourceSwap amt s).outputAmount)) := rfl

theorem le_bestOutputFold (amt : ℚ) :
    ∀ (l : List LiquiditySource) (init : ℚ), init ≤ bestOutputFold amt l init := by
  intro l
  induction l with
  | nil => intro init; simp [bestOutputFold]
  | cons s rest ih =>
    intro init
    rw [bestOutputFold_cons]
    exact le_trans (le_max_left _ _) (ih _)

theorem findBestLoop_eq (amt : ℚ) :
    ∀ (l : List LiquiditySource) (best : Option LiquiditySource) (b : ℚ),
    findBestLoop amt l best b =
      if b < bestOutputFold amt l b then
        l.find? fun s =>
          decide ((sourceSwap amt s).outputAmount = bestOutputFold amt l b)
      else best := by
  intro l
  induction l with
  | nil =>
    intro best b
    simp [findBestLoop, bestOutputFold]
  | cons s rest ih =>
    intro best b
    by_cases hlt : b < (sourceSwap amt s).outputAmount
    · have hM : bestOutputFold amt (s :: rest) b =
          bestOutputFold amt rest ((sourceSwap amt s).outputAmount) := by
        rw [bestOutputFold_cons, max_eq_right hlt.le]
      have houtM : (sourceSwap amt s).outputAmount ≤
          bestOutputFold amt rest ((sourceSwap amt s).outputAmount) :=
        le_bestOutputFold amt rest _
      have hbM : b < bestOutputFold amt (s :: rest) b :=
        lt_of_lt_of_le hlt (hM ▸ houtM)
      rw [if_pos hbM, hM]
      simp only [findBestLoop]
      rw [if_pos hlt, ih (some s) ((sourceSwap amt s).outputAmount)]
      by_cases heq : (sourceSwap amt s).outputAmount =
          bestOutputFold amt rest ((sourceSwap amt s).outputAmount)
      · rw [if_neg (by rw [← heq]; exact lt_irrefl _)]
        exact (List.find?_cons_of_pos
          (p := fun t => decide ((sourceSwap amt t).outputAmount =
            bestOutputFold amt rest ((sourceSwap amt s).outputAmount)))
          rest (by simpa using heq)).symm
      · rw [if_pos (lt_of_le_of_ne houtM heq)]
        exact (List.find?_cons_of_neg
          (p := fun t => decide ((sourceSwap amt t).outputAmount =
            bestOutputFold amt rest ((sourceSwap amt s).outputAmount)))
          rest (by simpa using heq)).symm
    · have hM : bestOutputFold amt (s :: rest) b = bestOutputFold amt rest b := by
        rw [bestOutputFold_cons, max_eq_left (not_lt.mp hlt)]
      rw [hM]
      simp only [findBestLoop]
      rw [if_neg hlt, ih best b]
      by_cases hb : b < bestOutputFold amt rest b
      · rw [if_pos hb, if_pos hb]
        exact (List.find?_cons_of_neg
          (p := fun t => decide ((sourceSwap amt t).outputAmount =
            bestOutputFold amt rest b))
          rest (by
            simp only [decide_eq_true_eq]
            exact ne_of_lt (lt_of_le_of_lt (not_lt.mp hlt) hb))).symm
      · rw [if_neg hb, if_neg hb]

/-- Claim C3 (amended): findBestSource returns none on an empty list,
and otherwise returns the first source in list order whose swap output
for the full input amount attains the maximum output, provided that
maximum is strictly positive; when no source quotes a strictly positive
output it returns none even on a non-empty list, because the running
best output starts at zero and only strictly greater outputs replace
it. -/
theorem findBestSource_characterization (sources : List LiquiditySource)
    (inputAmount : ℚ) :
    findBestSource sources inputAmount = specFindBest sources inputAmount := by
  cases sources with
  | nil => simp [findBestSource, specFindBest, bestOutputFold]
  | cons s rest =>
    simp only [findBestSource, List.length_cons]
    rw [if_neg (Nat.succ_ne_zero _), findBestLoop_eq]
    rfl

/-- Counterexample to claim C3 as stated: the list holding only the
drained pool is non-empty, yet findBestSource returns none for the
positive input amount 1000, because the only quoted output is zero and
never exceeds the initial best output of zero.  The claim requires the
single source of the list to be returned. -/
theorem findBestSource_nonempty_returns_none :
    findBestSource [srcDrained] 1000 = none ∧
      ([srcDrained] : List LiquiditySource) ≠ [] := by
  constructor
  · norm_num [findBestSource, findBestLoop, sourceSwap, calculateSwapResult,
      calculateSwapOutput, srcDrained]
  · exact List.cons_ne_nil _ _

theorem routeLoop_eq (amountPerSplit : ℚ) :
    ∀ l : List LiquiditySource,
    routeLoop amountPerSplit l =
      (l.map (mkAllocation amountPerSplit),
       ((l.map (mkAllocation amountPerSplit)).map RouteAllocation.inputAmount).sum,
       ((l.map (mkAllocation amountPerSplit)).map RouteAllocation.outputAmount).sum) := by
  intro l
  induction l with
  | nil => rfl
  | cons s rest ih =>
    simp [routeLoop, ih, mkAllocation]

/-- Claim C1: on a non-empty source list with a split bound of at least
one, calculateOptimalRoute equals the route the specification describes
(equal allocations of inputAmount over min(maxSplits, sourceCount) to
the sources of least full-amount impact, totals by summation, average
impact the arithmetic mean, effective price the ratio of the totals);
moreover the ranking really is ascending in full-amount price impact and
is a permutation of the input sources. -/
theorem calculateOptimalRoute_spec (sources : List LiquiditySource) (inputAmount : ℚ)
    (maxSplits : ℕ) (hne : sources ≠ []) (_hms : 1 ≤ maxSplits) :
    calculateOptimalRoute sources inputAmount maxSplits =
        specOptimalRoute sources inputAmount maxSplits ∧
      List.Pairwise (fun a b => fullImpact inputAmount a ≤ fullImpact inputAmount b)
        (sortSourcesByImpact sources inputAmount) ∧
      (sortSourcesByImpact sources inputAmount).Perm sources := by
  refine ⟨?_, ?_, List.mergeSort_perm sources _⟩
  · have hlen : (sortSourcesByImpact sources inputAmount).length = sources.length := by
      simp [sortSourcesByImpact, List.length_mergeSort]
    have hlenne : sources.length ≠ 0 := by
      simpa [List.length_eq_zero] using hne
    simp only [calculateOptimalRoute, specOptimalRoute]
    rw [if_neg hlenne, hlen, routeLoop_eq]
  · simp only [sortSourcesByImpact]
    exact List.Pairwise.imp (fun h => by simpa using h)
      (List.sorted_mergeSort
        (fun a b c hab hbc => by
          simp only [decide_eq_true_eq] at hab hbc ⊢
          exact le_trans hab hbc)
        (fun a b => by
          simp only [Bool.or_eq_true, decide_eq_true_eq]
          exact le_total _ _)
        sources)

/-- Witness for claim C1: two pools, input amount 100, at most three
splits. -/
theorem calculateOptimalRoute_spec_witness :
    (([srcAlpha, srcBeta] : List LiquiditySource) ≠ [] ∧ 1 ≤ 3) ∧
      calculateOptimalRoute [srcAlpha, srcBeta] 100 3 =
        specOptimalRoute [srcAlpha, srcBeta] 100 3 := by
  have h := calculateOptimalRoute_spec [srcAlpha, srcBeta] 100 3
    (List.cons_ne_nil _ _) (by norm_num)
  exact ⟨⟨List.cons_ne_nil _ _, by norm_num⟩, h.1⟩

theorem discoverNativeTiers_eq (assetA assetB : Asset) (poolIdOf : ℚ → String)
    (svc : String → PoolLookup) :
    ∀ tiers : List ℚ,
    discoverNativeTiers assetA assetB poolIdOf svc tiers =
      tiers.filterMap fun fee =>
        match svc (poolIdOf fee) with
        | .found a b sh =>
            some (mkDiscoveredSource assetA assetB (poolIdOf fee) fee a b sh)
        | .notFound => none
        | .transportError => none := by
  intro tiers
  induction tiers with
  | nil => rfl
  | cons fee rest ih =>
    simp only [discoverNativeTiers, List.filterMap_cons]
    cases svc (poolIdOf fee) <;> simp [ih]

/-- Claim C4: discovery enumerates exactly the fee tiers 30, 100 and
300, converting each found pool into one LiquiditySource whose reserves
and total shares come from the snapshot and whose price and tvl are
derived, while a not-found lookup and a transport failure are skipped
alike; consequently the result is empty exactly when no tier lookup
finds a pool (the external adapters contribute nothing), and the
operation is a total function of the collaborator behaviour, so it never
throws. -/
theorem discoverLiquiditySources_characterization (assetA assetB : Asset)
    (poolIdOf : ℚ → String) (svc : String → PoolLookup) :
    discoverLiquiditySources assetA assetB poolIdOf svc =
      (feeTiers.filterMap fun fee =>
        match svc (poolIdOf fee) with
        | .found a b sh =>
            some (mkDiscoveredSource assetA assetB (poolIdOf fee) fee a b sh)
        | .notFound => none
        | .transportError => none) ∧
    (discoverLiquiditySources assetA assetB poolIdOf svc = [] ↔
      ∀ fee ∈ feeTiers, ∀ a b sh, svc (poolIdOf fee) ≠ .found a b sh) := by
  have h1 : discoverLiquiditySources assetA assetB poolIdOf svc =
      feeTiers.filterMap fun fee =>
        match svc (poolIdOf fee) with
        | .found a b sh =>
            some (mkDiscoveredSource assetA assetB (poolIdOf fee) fee a b sh)
        | .notFound => none
        | .transportError => none := by
    simp [discoverLiquiditySources, discoverNativeTiers_eq, discoverExternalDEXs]
  refine ⟨h1, ?_⟩
  rw [h1, List.filterMap_eq_nil_iff]
  constructor
  · intro h fee hfee a b sh hsvc
    have hnone := h fee hfee
    rw [hsvc] at hnone
    simp at hnone
  · intro h fee hfee
    cases hs : svc (poolIdOf fee) with
    | found a b sh => exact absurd hs (h fee hfee a b sh)
    | notFound => rfl
    | transportError => rfl

end RWA
